import Mathlib

/-!
Verification of the AMBR unshipped-orders reconciliation pipeline.

The definitions below are a shallow embedding of the reconciliation and
classification pipeline of `AMBR.py`: marker-row removal, vendor-prefix
extraction, the silent drop of `Unknown`-prefixed rows, per-vendor duplicate
suppression against the old and new master sheets, new-SKU flagging, the
parallel fan-out over vendors, the fan-in into the three reporting
partitions, the per-vendor order counts, and the batched, retrying
enrichment client with its left-join merge.
-/

set_option maxRecDepth 10000

/-- An order row of the unshipped-orders batch.  Only the columns the core
pipeline interprets are modelled: the `order-id` column (a string) and the
`sku` column. -/
structure Row where
  orderId : String
  sku : String
deriving DecidableEq

/-- Does the list of characters `hay` start with `needle`? -/
def leadsWith : List Char → List Char → Bool
  | [], _ => true
  | _ :: _, [] => false
  | a :: as, b :: bs => a = b && leadsWith as bs

/-- Does `hay` contain `needle` as a contiguous sublist?  This models the
substring test performed by `str.contains` on a plain (regex-free) pattern. -/
def charsContain (needle : List Char) : List Char → Bool
  | [] => needle.isEmpty
  | b :: bs => leadsWith needle (b :: bs) || charsContain needle bs

/-- `strContains hay needle` models Python's `needle in hay` substring test. -/
def strContains (hay needle : String) : Bool :=
  charsContain needle.data hay.data

/-- Line 104 of `AMBR.py`: a SKU matches the removed-row marker pattern iff it
contains `-RET`, `-INV` or `-ret` as a substring (the regex alternation
`'-RET|-INV|-ret'` used with `str.contains`). -/
def isRemovedSku (sku : String) : Bool :=
  strContains sku "-RET" || strContains sku "-INV" || strContains sku "-ret"

/-- The characters of a SKU before its first `-`. -/
def takeUntilDash : List Char → List Char
  | [] => []
  | c :: cs => if c = '-' then [] else c :: takeUntilDash cs

/-- Line 111 of `AMBR.py`: the vendor name of a SKU is its first
`-`-delimited token, `sku.split('-')[0]`. -/
def vendorName (sku : String) : String :=
  String.mk (takeUntilDash sku.data)

/-- A sheet of a master workbook.  `orderIds` is `none` when the sheet has no
`order_id` column (accessing it then raises a `KeyError`); `skus` is `none`
when the sheet has no `sku` column (then `preload_skus` skips the sheet). -/
structure Sheet where
  orderIds : Option (List String)
  skus : Option (List String)
deriving DecidableEq

/-- The input of one run: the batch of unshipped-order rows, the old and new
master workbooks (sheet name to sheet), and the `Overall vendors` registry
(rows of `prefix` and `label` columns, in sheet order). -/
structure Env where
  batch : List Row
  oldSheets : List (String × Sheet)
  newSheets : List (String × Sheet)
  registry : List (String × String)
deriving DecidableEq

/-- Line 104: the rows whose SKU matches the marker pattern, kept aside. -/
def removedOrders (e : Env) : List Row :=
  e.batch.filter (fun r => isRemovedSku r.sku)

/-- Line 107: the batch with the marker rows removed. -/
def filteredBatch (e : Env) : List Row :=
  e.batch.filter (fun r => !isRemovedSku r.sku)

/-- Line 115: the working set after also dropping the rows whose vendor name
is `Unknown`. -/
def workingOrders (e : Env) : List Row :=
  (filteredBatch e).filter (fun r => decide (vendorName r.sku ≠ "Unknown"))

/-- First-seen-order duplicate removal, the order `pandas.unique` uses.
`seen` accumulates the values already emitted. -/
def uniqueFirstAux (seen : List String) : List String → List String
  | [] => []
  | a :: l => if a ∈ seen then uniqueFirstAux seen l
              else a :: uniqueFirstAux (a :: seen) l

/-- The distinct values of a list in first-seen order. -/
def uniqueFirst (l : List String) : List String :=
  uniqueFirstAux [] l

/-- Line 162: the distinct vendor names of the working set, in first-seen
order. -/
def vendorNames (e : Env) : List String :=
  uniqueFirst ((workingOrders e).map (fun r => vendorName r.sku))

/-- Line 132: the rows of the working set belonging to one vendor. -/
def selection (e : Env) (v : String) : List Row :=
  (workingOrders e).filter (fun r => decide (vendorName r.sku = v))

/-- Find a sheet of a workbook by name. -/
def lookupSheet (sheets : List (String × Sheet)) (name : String) : Option Sheet :=
  (sheets.find? (fun p => decide (p.1 = name))).map Prod.snd

/-- Lines 140-141: the label of a vendor is the `label` value of the first
registry row whose `prefix` equals the vendor name, and `Unknown` when no
row matches. -/
def labelOf (registry : List (String × String)) (v : String) : String :=
  match registry.find? (fun p => decide (p.1 = v)) with
  | some p => p.2
  | none => "Unknown"

/-- The known order identifiers a source contributes for a label type: the
`order_id` column of the sheet of that name, empty when there is no such
sheet (and, for stating theorems about successful runs, empty when the sheet
has no `order_id` column — that case can only arise from a failed run). -/
def knownIds (sheets : List (String × Sheet)) (label : String) : List String :=
  match lookupSheet sheets label with
  | none => []
  | some sh => sh.orderIds.getD []

/-- Lines 118-123, `preload_skus`: for every sheet that has a `sku` column,
record its SKU values under the sheet name. -/
def preloadSkus (sheets : List (String × Sheet)) : List (String × List String) :=
  sheets.filterMap (fun p => p.2.skus.map (fun ks => (p.1, ks)))

/-- Line 155, `old_skus.get(label_type, set())`: the preloaded SKU set of a
label type, empty when absent. -/
def skuSet (sheets : List (String × Sheet)) (label : String) : List String :=
  match (preloadSkus sheets).find? (fun p => decide (p.1 = label)) with
  | some p => p.2
  | none => []

/-- Lines 144-149: duplicate suppression against one source.  When the
workbook has a sheet named after the label type, the selection keeps only
the rows whose order id is not in that sheet's `order_id` column; a sheet
without an `order_id` column raises a `KeyError`. -/
def suppressAgainst (sheets : List (String × Sheet)) (label : String)
    (rows : List Row) : Except String (List Row) :=
  match lookupSheet sheets label with
  | none => .ok rows
  | some sh =>
    match sh.orderIds with
    | none => .error "KeyError: order_id"
    | some ids => .ok (rows.filter (fun r => decide (r.orderId ∉ ids)))

/-- Lines 130-158, `process_vendor`: select the vendor's rows, resolve the
label type, suppress orders known to either master source, and flag each
surviving row as a new SKU when the label type is not `Unknown` and the SKU
is absent from the union of the preloaded SKU sets. -/
def processVendor (e : Env) (v : String) :
    Except String (List (Row × Bool) × String) :=
  if (selection e v).isEmpty then .ok ([], "Unknown")
  else
    match suppressAgainst e.oldSheets (labelOf e.registry v) (selection e v) with
    | .error s => .error s
    | .ok sel1 =>
      match suppressAgainst e.newSheets (labelOf e.registry v) sel1 with
      | .error s => .error s
      | .ok sel2 =>
        if labelOf e.registry v = "Unknown" then
          .ok (sel2.map (fun r => (r, false)), labelOf e.registry v)
        else
          .ok (sel2.map (fun r =>
            (r, !(decide (r.sku ∈ skuSet e.oldSheets (labelOf e.registry v) ++
                          skuSet e.newSheets (labelOf e.registry v))))),
            labelOf e.registry v)

/-- Lines 164-165, `pool.map(process_vendor, vendor_names)`: apply the worker
to every vendor; an exception raised by any worker propagates and aborts the
whole map, producing no results at all. -/
def mapPool (f : String → Except String (List (Row × Bool) × String)) :
    List String → Except String (List (List (Row × Bool) × String))
  | [] => .ok []
  | v :: vs =>
    match f v with
    | .error s => .error s
    | .ok a =>
      match mapPool f vs with
      | .error s => .error s
      | .ok as => .ok (a :: as)

/-- The whole parallel phase: every vendor's result, or the propagated
exception of a failed worker. -/
def runAll (e : Env) : Except String (List (List (Row × Bool) × String)) :=
  mapPool (processVendor e) (vendorNames e)

/-- Lines 173-175: the `Label Vendors` partition is the concatenation, in
result order, of the row sets whose label type is `Label Vendors`. -/
def labelPart (rs : List (List (Row × Bool) × String)) : List (Row × Bool) :=
  (rs.filter (fun p => decide (p.2 = "Label Vendors"))).flatMap Prod.fst

/-- Lines 176-177: the `Non-Label Vendors` partition. -/
def nonLabelPart (rs : List (List (Row × Bool) × String)) : List (Row × Bool) :=
  (rs.filter (fun p =>
    decide (p.2 ≠ "Label Vendors") && decide (p.2 = "Non-Label Vendors"))).flatMap Prod.fst

/-- Lines 178-179: every other label type is folded into the `Unknown`
partition. -/
def unknownPart (rs : List (List (Row × Bool) × String)) : List (Row × Bool) :=
  (rs.filter (fun p =>
    decide (p.2 ≠ "Label Vendors") && decide (p.2 ≠ "Non-Label Vendors"))).flatMap Prod.fst

/-- Lines 180-181: the rows flagged as new SKUs, across all vendors. -/
def newSkusPart (rs : List (List (Row × Bool) × String)) : List (Row × Bool) :=
  rs.flatMap (fun p => p.1.filter (fun q => q.2))

/-- Line 185: `all_processed_orders`, the concatenation of the Label and
Non-Label partitions. -/
def allProcessed (rs : List (List (Row × Bool) × String)) : List (Row × Bool) :=
  labelPart rs ++ nonLabelPart rs

/-- Lines 186-187, `vendor_order_counts`: for each distinct vendor name of a
row list, the number of distinct order ids of that vendor's rows. -/
def vendorOrderCounts (rows : List (Row × Bool)) : List (String × Nat) :=
  (uniqueFirst (rows.map (fun p => vendorName p.1.sku))).map
    (fun v => (v,
      (uniqueFirst ((rows.filter (fun p => decide (vendorName p.1.sku = v))).map
        (fun p => p.1.orderId))).length))

/-- The sum of the per-vendor unique order counts. -/
def sumVendorCounts (rows : List (Row × Bool)) : Nat :=
  ((vendorOrderCounts rows).map Prod.snd).sum

/-- Line 197: the number of distinct order ids of a row list
(`['order-id'].nunique()`). -/
def totalOrderCount (rows : List (Row × Bool)) : Nat :=
  (uniqueFirst (rows.map (fun p => p.1.orderId))).length

/-- The label the pipeline resolves for a row, via its vendor name. -/
def rowLabel (e : Env) (r : Row) : String :=
  labelOf e.registry (vendorName r.sku)

/-- A row survives duplicate suppression iff its order id is known to
neither source for its label type. -/
def survivesSupp (e : Env) (r : Row) : Prop :=
  r.orderId ∉ knownIds e.oldSheets (rowLabel e r) ∧
  r.orderId ∉ knownIds e.newSheets (rowLabel e r)

/-- The rows of a vendor's selection that survive duplicate suppression. -/
def survivorsOf (e : Env) (v : String) : List Row :=
  ((selection e v).filter
      (fun r => decide (r.orderId ∉ knownIds e.oldSheets (labelOf e.registry v)))).filter
    (fun r => decide (r.orderId ∉ knownIds e.newSheets (labelOf e.registry v)))

/-- The new-SKU flag `process_vendor` attaches to a surviving row. -/
def newFlag (e : Env) (lt : String) (r : Row) : Bool :=
  if lt = "Unknown" then false
  else !(decide (r.sku ∈ skuSet e.oldSheets lt ++ skuSet e.newSheets lt))

/-- Modelled on the spec's words for the partition-completeness property: the
size of the batch after collapsing rows sharing an `order_id` to one and
removing the marker rows (the code itself never collapses by `order_id`;
this definition exists to compare the spec's claimed count with the one the
code produces). -/
def spec_dedupedFilteredCount (e : Env) : Nat :=
  (uniqueFirst ((filteredBatch e).map Row.orderId)).length


/-! ### Concrete runs used as counterexamples and witnesses -/

/-- A batch holding two copies of one order id. -/
def envDupOrder : Env :=
  { batch := [⟨"1", "A-1"⟩, ⟨"1", "A-1"⟩],
    oldSheets := [], newSheets := [],
    registry := [("A", "Label Vendors")] }

/-- A batch where one order id spans two vendor prefixes. -/
def envSpanVendors : Env :=
  { batch := [⟨"1", "A-x"⟩, ⟨"1", "X-y"⟩],
    oldSheets := [], newSheets := [],
    registry := [("A", "Label Vendors"), ("X", "Label Vendors")] }

/-- An old master workbook holding a sheet literally named `Unknown` whose
`order_id` column contains the id of an unregistered vendor's order. -/
def envUnknownSheet : Env :=
  { batch := [⟨"7", "Q-1"⟩],
    oldSheets := [("Unknown", ⟨some ["7"], some []⟩)], newSheets := [],
    registry := [] }

/-- An old master workbook whose sheet `L1` lacks an `order_id` column; the
vendor `A` maps to `L1`, the vendor `X` is unregistered. -/
def envBadColumn : Env :=
  { batch := [⟨"1", "A-a"⟩, ⟨"2", "X-b"⟩],
    oldSheets := [("L1", ⟨none, some []⟩)], newSheets := [],
    registry := [("A", "L1")] }

/-- A batch whose single row both matches the marker pattern and has the
vendor name `Unknown`. -/
def envMarkerUnknown : Env :=
  { batch := [⟨"1", "Unknown-RET"⟩],
    oldSheets := [], newSheets := [], registry := [] }

/-- A healthy run: one marker row, one ordinary row of a registered vendor
whose SKU is already known to the old master sheet. -/
def envSimple : Env :=
  { batch := [⟨"1", "A-RET"⟩, ⟨"2", "A-x"⟩, ⟨"3", "A-y"⟩],
    oldSheets := [("Label Vendors", ⟨some ["2"], some ["A-y"]⟩)],
    newSheets := [],
    registry := [("A", "Label Vendors")] }

/-- A vendor with no reference sheets at all and no registry row. -/
def envPlain : Env :=
  { batch := [⟨"9", "Q-z"⟩],
    oldSheets := [], newSheets := [], registry := [] }

/-- A batch holding a plain `Unknown`-prefixed row next to an ordinary row. -/
def envUnknownRow : Env :=
  { batch := [⟨"1", "Unknown-9"⟩, ⟨"2", "A-x"⟩],
    oldSheets := [], newSheets := [],
    registry := [("A", "Label Vendors")] }

/-! ### The enrichment client: retrying fetch, chunked calls, left-join merge -/

/-- A parsed API response: the `status` flag the chunk loop checks and the
`data` mapping from SKU to its attribute payload (modelled as one string). -/
structure Resp where
  status : Bool
  data : List (String × String)
deriving DecidableEq

/-- The outcome of a single HTTP attempt inside `fetch_sku_details`: a
response parsed successfully, a timeout, or any other request exception. -/
inductive Attempt where
  | success (resp : Resp)
  | timeout
  | reqError
deriving DecidableEq

/-- The observable behaviour of one `fetch_sku_details` call: its returned
value, the number of attempts consumed, the number of `time.sleep(2)` delays
performed, and whether the retry loop itself sent a failure notification. -/
structure FetchTrace where
  result : Option Resp
  attemptsMade : Nat
  sleeps : Nat
  warned : Bool
deriving DecidableEq

/-- Lines 394-407 of `AMBR.py`: iterate over the attempts.  A successful
response returns at once.  A timeout logs and retries immediately — no
sleep, and no notification even on the final attempt.  Any other request
exception notifies and returns `None` on the final attempt, and otherwise
sleeps two seconds before retrying.  Falling off the loop returns `None`. -/
def fetchLoop : List Attempt → FetchTrace
  | [] => ⟨none, 0, 0, false⟩
  | .success r :: _ => ⟨some r, 1, 0, false⟩
  | .timeout :: rest =>
    ⟨(fetchLoop rest).result, (fetchLoop rest).attemptsMade + 1,
     (fetchLoop rest).sleeps, (fetchLoop rest).warned⟩
  | .reqError :: rest =>
    if rest.isEmpty then ⟨none, 1, 0, true⟩
    else
      ⟨(fetchLoop rest).result, (fetchLoop rest).attemptsMade + 1,
       (fetchLoop rest).sleeps + 1, (fetchLoop rest).warned⟩

/-- `fetch_sku_details` with its fixed bound `max_retries = 3`: the loop
consumes at most the first three attempt outcomes. -/
def fetchSkuDetails (outs : List Attempt) : FetchTrace :=
  fetchLoop (outs.take 3)

/-- The contribution of one fetch result to the chunk loop: data is kept
only when a response was returned and its `status` flag is set. -/
def chunkOutcome (t : FetchTrace) : Option (List (String × String)) :=
  match t.result with
  | none => none
  | some r => if r.status then some r.data else none

/-- Structurally recursive worker for `chunksOf`; the fuel bounds the number
of chunks and is instantiated with the list length. -/
def chunksOfAux {α : Type} (n : Nat) : Nat → List α → List (List α)
  | 0, _ => []
  | _ + 1, [] => []
  | fuel + 1, x :: xs => (x :: xs).take n :: chunksOfAux n fuel ((x :: xs).drop n)

/-- Line 416, `range(0, len(unique_skus), chunk_size)`: split a list into
consecutive chunks of `n` elements. -/
def chunksOf {α : Type} (n : Nat) (l : List α) : List (List α) :=
  if n = 0 then [] else chunksOfAux n l.length l

/-- Lines 415-431: `sku_details`, the concatenation of the data of the
successful chunk responses, in chunk order; failed chunks contribute
nothing. -/
def mergedDetails (outcomes : List (Option (List (String × String)))) :
    List (String × String) :=
  (outcomes.map (fun o => o.getD [])).flatten

/-- Lines 451-459, `pd.merge(..., how='left')` keyed on `sku`: each partition
row is kept; a row with no matching detail key gets a null attribute, and a
row with matching detail entries yields one output row per match. -/
def leftJoin (rows : List (Row × Bool)) (d : List (String × String)) :
    List ((Row × Bool) × Option String) :=
  rows.flatMap (fun p =>
    if (d.filter (fun q => decide (q.1 = p.1.sku))).isEmpty then [(p, none)]
    else (d.filter (fun q => decide (q.1 = p.1.sku))).map (fun q => (p, some q.2)))

/-- The eleven SKUs of the witness enrichment run: two chunks of sizes ten
and one. -/
def skus11 : List String :=
  ["a", "b", "c", "d", "e", "f", "g", "h", "i", "j", "k"]

/-- The successful first-chunk response data of the witness run. -/
def okData10 : List (String × String) :=
  [("a", "1"), ("b", "1"), ("c", "1"), ("d", "1"), ("e", "1"),
   ("f", "1"), ("g", "1"), ("h", "1"), ("i", "1"), ("j", "1")]

/-- The chunk outcomes of the witness run: chunk 0 succeeds, chunk 1 fails
after exhausting its retries. -/
def outcomes2 : List (Option (List (String × String))) :=
  [some okData10, none]

/-- The partition rows of the witness enrichment run. -/
def rows2 : List (Row × Bool) :=
  [(⟨"1", "a"⟩, false), (⟨"2", "k"⟩, false)]

/-- Is an attempt outcome a non-timeout request exception? -/
def isReqError : Attempt → Bool
  | .reqError => true
  | _ => false

/-- Is an attempt outcome a successful response? -/
def isSuccess : Attempt → Bool
  | .success _ => true
  | _ => false

/-! ### Basic lemmas about first-seen deduplication -/

theorem mem_uniqueFirstAux {a : String} :
    ∀ {l seen : List String}, a ∈ uniqueFirstAux seen l ↔ a ∈ l ∧ a ∉ seen := by
  intro l
  induction l with
  | nil => intro seen; simp [uniqueFirstAux]
  | cons b l ih =>
    intro seen
    simp only [uniqueFirstAux, List.mem_cons]
    split
    · rename_i hb
      rw [ih]
      constructor
      · rintro ⟨h1, h2⟩; exact ⟨Or.inr h1, h2⟩
      · rintro ⟨h1, h2⟩
        rcases h1 with h1 | h1
        · exact absurd (h1 ▸ hb) h2
        · exact ⟨h1, h2⟩
    · rename_i hb
      simp only [List.mem_cons]
      constructor
      · rintro (h | h)
        · exact ⟨Or.inl h, h ▸ hb⟩
        · rw [ih] at h
          exact ⟨Or.inr h.1, fun hs => h.2 (List.mem_cons_of_mem _ hs)⟩
      · rintro ⟨h1, h2⟩
        rcases h1 with h1 | h1
        · exact Or.inl h1
        · by_cases hab : a = b
          · exact Or.inl hab
          · exact Or.inr (ih.mpr ⟨h1, by
              simp only [List.mem_cons, not_or]; exact ⟨hab, h2⟩⟩)

theorem mem_uniqueFirst {a : String} {l : List String} :
    a ∈ uniqueFirst l ↔ a ∈ l := by
  simp [uniqueFirst, mem_uniqueFirstAux]

theorem nodup_uniqueFirstAux : ∀ (l seen : List String),
    (uniqueFirstAux seen l).Nodup := by
  intro l
  induction l with
  | nil => intro seen; simp [uniqueFirstAux]
  | cons b l ih =>
    intro seen
    simp only [uniqueFirstAux]
    split
    · exact ih seen
    · refine List.nodup_cons.mpr ⟨?_, ih (b :: seen)⟩
      intro hmem
      rw [mem_uniqueFirstAux] at hmem
      exact hmem.2 (List.mem_cons_self b seen)

theorem nodup_uniqueFirst (l : List String) : (uniqueFirst l).Nodup :=
  nodup_uniqueFirstAux l []

theorem uniqueFirst_toFinset (l : List String) :
    (uniqueFirst l).toFinset = l.toFinset := by
  ext a
  simp [List.mem_toFinset, mem_uniqueFirst]

theorem length_uniqueFirst (l : List String) :
    (uniqueFirst l).length = l.toFinset.card := by
  rw [← uniqueFirst_toFinset, List.toFinset_card_of_nodup (nodup_uniqueFirst l)]

/-! ### Characterisation of the per-vendor worker -/

theorem suppressAgainst_ok {sheets : List (String × Sheet)} {label : String}
    {rows out : List Row}
    (h : suppressAgainst sheets label rows = .ok out) :
    out = rows.filter (fun r => decide (r.orderId ∉ knownIds sheets label)) := by
  unfold suppressAgainst at h
  split at h
  · rename_i hl
    simp only [Except.ok.injEq] at h
    subst h
    simp [knownIds, hl]
  · rename_i sh hl
    split at h
    · cases h
    · rename_i ids hi
      simp only [Except.ok.injEq] at h
      subst h
      simp [knownIds, hl, hi]

theorem processVendor_empty {e : Env} {v : String} (h : selection e v = []) :
    processVendor e v = .ok ([], "Unknown") := by
  unfold processVendor
  simp [h]

theorem processVendor_ok_eq {e : Env} {v : String}
    {out : List (Row × Bool) × String} (h : processVendor e v = .ok out) :
    out.1 = (survivorsOf e v).map (fun r => (r, newFlag e out.2 r)) ∧
    (selection e v ≠ [] → out.2 = labelOf e.registry v) ∧
    (selection e v = [] → out = ([], "Unknown")) := by
  unfold processVendor at h
  split at h
  · rename_i hsel
    simp only [Except.ok.injEq] at h
    subst h
    have hnil : selection e v = [] := List.isEmpty_iff.mp hsel
    refine ⟨?_, fun hc => absurd hnil hc, fun _ => rfl⟩
    simp [survivorsOf, hnil]
  · rename_i hsel
    have hnil : selection e v ≠ [] := by
      intro hc
      exact hsel (by simp [hc])
    split at h
    · cases h
    · rename_i sel1 h1
      split at h
      · cases h
      · rename_i sel2 h2
        have hsurv : sel2 = survivorsOf e v := by
          rw [suppressAgainst_ok h2, suppressAgainst_ok h1]
          rfl
        split at h
        · rename_i hu
          simp only [Except.ok.injEq] at h
          subst h
          refine ⟨?_, fun _ => rfl, fun hc => absurd hc hnil⟩
          rw [hsurv]
          exact List.map_congr_left (fun r _ => by simp [newFlag, hu])
        · rename_i hu
          simp only [Except.ok.injEq] at h
          subst h
          refine ⟨?_, fun _ => rfl, fun hc => absurd hc hnil⟩
          rw [hsurv]
          exact List.map_congr_left (fun r _ => by simp [newFlag, hu])

theorem selection_subset {e : Env} {v : String} {r : Row}
    (h : r ∈ selection e v) : r ∈ workingOrders e ∧ vendorName r.sku = v := by
  have := List.mem_filter.mp h
  exact ⟨this.1, by simpa using this.2⟩

theorem survivorsOf_subset {e : Env} {v : String} {r : Row}
    (h : r ∈ survivorsOf e v) :
    r ∈ selection e v ∧
    r.orderId ∉ knownIds e.oldSheets (labelOf e.registry v) ∧
    r.orderId ∉ knownIds e.newSheets (labelOf e.registry v) := by
  unfold survivorsOf at h
  have h2 := List.mem_filter.mp h
  have h1 := List.mem_filter.mp h2.1
  exact ⟨h1.1, by simpa using h1.2, by simpa using h2.2⟩

theorem mem_survivorsOf {e : Env} {v : String} {r : Row} :
    r ∈ survivorsOf e v ↔
      r ∈ selection e v ∧
      r.orderId ∉ knownIds e.oldSheets (labelOf e.registry v) ∧
      r.orderId ∉ knownIds e.newSheets (labelOf e.registry v) := by
  constructor
  · exact survivorsOf_subset
  · rintro ⟨h1, h2, h3⟩
    unfold survivorsOf
    exact List.mem_filter.mpr ⟨List.mem_filter.mpr ⟨h1, by simpa using h2⟩,
      by simpa using h3⟩

theorem processVendor_ok_rows {e : Env} {v : String}
    {out : List (Row × Bool) × String} (h : processVendor e v = .ok out)
    {p : Row × Bool} (hp : p ∈ out.1) :
    p.1 ∈ selection e v ∧ vendorName p.1.sku = v ∧
    out.2 = labelOf e.registry v ∧ rowLabel e p.1 = out.2 ∧
    survivesSupp e p.1 ∧ p.2 = newFlag e out.2 p.1 := by
  obtain ⟨heq, hlab, _⟩ := processVendor_ok_eq h
  rw [heq] at hp
  obtain ⟨r, hr, hpr⟩ := List.mem_map.mp hp
  obtain ⟨hsel, hold, hnew⟩ := survivorsOf_subset hr
  obtain ⟨hw, hv⟩ := selection_subset hsel
  have hne : selection e v ≠ [] := fun hc => by rw [hc] at hsel; cases hsel
  have hl2 : rowLabel e r = labelOf e.registry v := by
    rw [rowLabel, hv]
  subst hpr
  refine ⟨hsel, hv, hlab hne, ?_, ?_, rfl⟩
  · rw [hl2, hlab hne]
  · exact ⟨by rwa [hl2], by rwa [hl2]⟩

/-! ### The parallel fan-out -/

theorem mapPool_ok_mem {f : String → Except String (List (Row × Bool) × String)}
    {vs : List String} {rs : List (List (Row × Bool) × String)}
    (h : mapPool f vs = .ok rs) {v : String} (hv : v ∈ vs) :
    ∃ out, out ∈ rs ∧ f v = .ok out := by
  induction vs generalizing rs with
  | nil => cases hv
  | cons w vs ih =>
    unfold mapPool at h
    split at h
    · cases h
    · rename_i a ha
      split at h
      · cases h
      · rename_i as has
        simp only [Except.ok.injEq] at h
        subst h
        rcases List.mem_cons.mp hv with hv | hv
        · exact ⟨a, List.mem_cons_self _ _, hv ▸ ha⟩
        · obtain ⟨out, ho, hf⟩ := ih has hv
          exact ⟨out, List.mem_cons_of_mem _ ho, hf⟩

theorem mapPool_ok_mem_rev {f : String → Except String (List (Row × Bool) × String)}
    {vs : List String} {rs : List (List (Row × Bool) × String)}
    (h : mapPool f vs = .ok rs) {out : List (Row × Bool) × String}
    (ho : out ∈ rs) : ∃ v, v ∈ vs ∧ f v = .ok out := by
  induction vs generalizing rs with
  | nil =>
    unfold mapPool at h
    simp only [Except.ok.injEq] at h
    subst h
    cases ho
  | cons w vs ih =>
    unfold mapPool at h
    split at h
    · cases h
    · rename_i a ha
      split at h
      · cases h
      · rename_i as has
        simp only [Except.ok.injEq] at h
        subst h
        rcases List.mem_cons.mp ho with ho | ho
        · exact ⟨w, List.mem_cons_self _ _, ho ▸ ha⟩
        · obtain ⟨v, hv, hf⟩ := ih has ho
          exact ⟨v, List.mem_cons_of_mem _ hv, hf⟩

theorem mapPool_error_of_mem
    {f : String → Except String (List (Row × Bool) × String)}
    {vs : List String} {v : String} {s : String}
    (hv : v ∈ vs) (h : f v = .error s) :
    ∃ s2, mapPool f vs = .error s2 := by
  induction vs with
  | nil => cases hv
  | cons w vs ih =>
    rcases List.mem_cons.mp hv with hw | hw
    · subst hw
      exact ⟨s, by unfold mapPool; rw [h]⟩
    · unfold mapPool
      cases hfw : f w with
      | error s2 => exact ⟨s2, rfl⟩
      | ok a =>
        obtain ⟨s2, h2⟩ := ih hw
        rw [h2]
        exact ⟨s2, rfl⟩

theorem mapPool_ok_sum {e : Env} {vs : List String}
    {rs : List (List (Row × Bool) × String)}
    (h : mapPool (processVendor e) vs = .ok rs) :
    (rs.map (fun p => p.1.length)).sum
      = (vs.map (fun v => (survivorsOf e v).length)).sum := by
  induction vs generalizing rs with
  | nil =>
    unfold mapPool at h
    simp only [Except.ok.injEq] at h
    subst h
    simp
  | cons w vs ih =>
    unfold mapPool at h
    split at h
    · cases h
    · rename_i a ha
      split at h
      · cases h
      · rename_i as has
        simp only [Except.ok.injEq] at h
        subst h
        obtain ⟨heq, _, _⟩ := processVendor_ok_eq ha
        simp only [List.map_cons, List.sum_cons, ih has, heq,
          List.length_map]

/-! ### The fan-in into the three partitions -/

theorem mem_labelPart {rs : List (List (Row × Bool) × String)} {p : Row × Bool} :
    p ∈ labelPart rs ↔ ∃ pr ∈ rs, pr.2 = "Label Vendors" ∧ p ∈ pr.1 := by
  simp only [labelPart, List.mem_flatMap, List.mem_filter, decide_eq_true_eq]
  constructor
  · rintro ⟨pr, ⟨h1, h2⟩, h3⟩; exact ⟨pr, h1, h2, h3⟩
  · rintro ⟨pr, h1, h2, h3⟩; exact ⟨pr, ⟨h1, h2⟩, h3⟩

theorem mem_nonLabelPart {rs : List (List (Row × Bool) × String)} {p : Row × Bool} :
    p ∈ nonLabelPart rs ↔ ∃ pr ∈ rs, pr.2 = "Non-Label Vendors" ∧ p ∈ pr.1 := by
  simp only [nonLabelPart, List.mem_flatMap, List.mem_filter, Bool.and_eq_true,
    decide_eq_true_eq]
  constructor
  · rintro ⟨pr, ⟨h1, _, h2⟩, h3⟩; exact ⟨pr, h1, h2, h3⟩
  · rintro ⟨pr, h1, h2, h3⟩
    refine ⟨pr, ⟨h1, ?_, h2⟩, h3⟩
    rw [h2]
    decide

theorem mem_unknownPart {rs : List (List (Row × Bool) × String)} {p : Row × Bool} :
    p ∈ unknownPart rs ↔
      ∃ pr ∈ rs, pr.2 ≠ "Label Vendors" ∧ pr.2 ≠ "Non-Label Vendors" ∧ p ∈ pr.1 := by
  simp only [unknownPart, List.mem_flatMap, List.mem_filter, Bool.and_eq_true,
    decide_eq_true_eq]
  constructor
  · rintro ⟨pr, ⟨h1, h2, h3⟩, h4⟩; exact ⟨pr, h1, h2, h3, h4⟩
  · rintro ⟨pr, h1, h2, h3, h4⟩; exact ⟨pr, ⟨h1, h2, h3⟩, h4⟩

theorem partition_length_sum (rs : List (List (Row × Bool) × String)) :
    (labelPart rs).length + (nonLabelPart rs).length + (unknownPart rs).length
      = (rs.map (fun p => p.1.length)).sum := by
  induction rs with
  | nil => simp [labelPart, nonLabelPart, unknownPart]
  | cons p rs ih =>
    simp only [labelPart, nonLabelPart, unknownPart, List.filter_cons,
      List.map_cons, List.sum_cons] at *
    by_cases h1 : p.2 = "Label Vendors"
    · have d1 : (decide (p.2 = "Label Vendors")) = true := by rw [h1]; decide
      have d2 : (decide (p.2 ≠ "Label Vendors")) = false := by rw [h1]; decide
      have d3 : (decide (p.2 = "Non-Label Vendors")) = false := by rw [h1]; decide
      have d4 : (decide (p.2 ≠ "Non-Label Vendors")) = true := by rw [h1]; decide
      simp only [d1, d2, d3, d4, Bool.false_and, Bool.true_and,
        Bool.false_eq_true, eq_self_iff_true, if_true,
        if_false, List.flatMap_cons, List.length_append]
      omega
    · by_cases h2 : p.2 = "Non-Label Vendors"
      · have d1 : (decide (p.2 = "Label Vendors")) = false := by
          simpa using h1
        have d2 : (decide (p.2 ≠ "Label Vendors")) = true := by
          simpa using h1
        have d3 : (decide (p.2 = "Non-Label Vendors")) = true := by rw [h2]; decide
        have d4 : (decide (p.2 ≠ "Non-Label Vendors")) = false := by rw [h2]; decide
        simp only [d1, d2, d3, d4, Bool.true_and, Bool.false_eq_true,
          eq_self_iff_true, if_true, if_false,
          List.flatMap_cons, List.length_append]
        omega
      · have d1 : (decide (p.2 = "Label Vendors")) = false := by simpa using h1
        have d2 : (decide (p.2 ≠ "Label Vendors")) = true := by simpa using h1
        have d3 : (decide (p.2 = "Non-Label Vendors")) = false := by
          simpa using h2
        have d4 : (decide (p.2 ≠ "Non-Label Vendors")) = true := by
          simpa using h2
        simp only [d1, d2, d3, d4, Bool.true_and, Bool.false_eq_true,
          eq_self_iff_true, if_true, if_false,
          List.flatMap_cons, List.length_append]
        omega

theorem partitionRows_sound {e : Env} {rs : List (List (Row × Bool) × String)}
    (h : runAll e = .ok rs) {p : Row × Bool}
    (hp : p ∈ labelPart rs ∨ p ∈ nonLabelPart rs ∨ p ∈ unknownPart rs) :
    p.1 ∈ workingOrders e ∧ survivesSupp e p.1 ∧
    p.2 = newFlag e (rowLabel e p.1) p.1 := by
  have hex : ∃ pr ∈ rs, p ∈ pr.1 := by
    rcases hp with hp | hp | hp
    · obtain ⟨pr, h1, _, h3⟩ := mem_labelPart.mp hp; exact ⟨pr, h1, h3⟩
    · obtain ⟨pr, h1, _, h3⟩ := mem_nonLabelPart.mp hp; exact ⟨pr, h1, h3⟩
    · obtain ⟨pr, h1, _, _, h4⟩ := mem_unknownPart.mp hp; exact ⟨pr, h1, h4⟩
  obtain ⟨pr, hpr, hin⟩ := hex
  obtain ⟨v, _, hok⟩ := mapPool_ok_mem_rev h hpr
  obtain ⟨hsel, _, _, hrl, hsupp, hflag⟩ := processVendor_ok_rows hok hin
  exact ⟨(selection_subset hsel).1, hsupp, by rw [hflag, hrl]⟩

theorem partition_complete {e : Env} {rs : List (List (Row × Bool) × String)}
    (h : runAll e = .ok rs) {r : Row}
    (hr : r ∈ workingOrders e) (hs : survivesSupp e r) :
    ∃ b, (r, b) ∈ labelPart rs ∨ (r, b) ∈ nonLabelPart rs ∨
         (r, b) ∈ unknownPart rs := by
  have hv : vendorName r.sku ∈ vendorNames e :=
    mem_uniqueFirst.mpr (List.mem_map_of_mem _ hr)
  obtain ⟨out, ho, hok⟩ := mapPool_ok_mem h hv
  have hsel : r ∈ selection e (vendorName r.sku) :=
    List.mem_filter.mpr ⟨hr, by simp⟩
  have hsurv : r ∈ survivorsOf e (vendorName r.sku) := by
    rw [mem_survivorsOf]
    refine ⟨hsel, ?_, ?_⟩
    · exact hs.1
    · exact hs.2
  obtain ⟨heq, hlab, _⟩ := processVendor_ok_eq hok
  have hne : selection e (vendorName r.sku) ≠ [] := fun hc => by
    rw [hc] at hsel; cases hsel
  have hmem : (r, newFlag e out.2 r) ∈ out.1 := by
    rw [heq]
    exact List.mem_map_of_mem _ hsurv
  refine ⟨newFlag e out.2 r, ?_⟩
  by_cases hL : out.2 = "Label Vendors"
  · exact Or.inl (mem_labelPart.mpr ⟨out, ho, hL, hmem⟩)
  · by_cases hN : out.2 = "Non-Label Vendors"
    · exact Or.inr (Or.inl (mem_nonLabelPart.mpr ⟨out, ho, hN, hmem⟩))
    · exact Or.inr (Or.inr (mem_unknownPart.mpr ⟨out, ho, hL, hN, hmem⟩))

theorem knownIds_of_none {sheets : List (String × Sheet)} {label : String}
    (h : lookupSheet sheets label = none) : knownIds sheets label = [] := by
  simp [knownIds, h]

/-! ### Claims C2 and C3: new-SKU flagging and duplicate suppression -/

/-- Claim C2: for every vendor whose resolved label type is not `Unknown`,
every order surviving duplicate suppression is flagged `is_new_sku = true`
exactly when its SKU is absent from the union of the old and new reference
SKU sets for that label type. -/
theorem c2_new_sku_correct (e : Env) (v : String)
    (rows : List (Row × Bool)) (lt : String)
    (h : processVendor e v = .ok (rows, lt)) (hlt : lt ≠ "Unknown") :
    ∀ p ∈ rows, (p.2 = true ↔
      (p.1.sku ∉ skuSet e.oldSheets lt ∧ p.1.sku ∉ skuSet e.newSheets lt)) := by
  intro p hp
  obtain ⟨_, _, _, _, _, hflag⟩ := processVendor_ok_rows h hp
  rw [hflag]
  show newFlag e lt p.1 = true ↔ _
  rw [newFlag, if_neg hlt]
  simp [not_or]

/-- Witness for C2 at a concrete run. -/
theorem c2_witness :
    processVendor envSimple "A" =
      .ok ([(⟨"3", "A-y"⟩, false)], "Label Vendors") ∧
    ∀ p ∈ ([(⟨"3", "A-y"⟩, false)] : List (Row × Bool)),
      (p.2 = true ↔
        (p.1.sku ∉ skuSet envSimple.oldSheets "Label Vendors" ∧
         p.1.sku ∉ skuSet envSimple.newSheets "Label Vendors")) :=
  ⟨rfl, c2_new_sku_correct envSimple "A" _ "Label Vendors" rfl (by decide)⟩

/-- Claim C3: for every vendor with a non-`Unknown` label type, an order of
its selection survives duplicate suppression iff its order id is known to
neither the old nor the new reference source for that label type. -/
theorem c3_suppression_iff (e : Env) (v : String)
    (rows : List (Row × Bool)) (lt : String)
    (h : processVendor e v = .ok (rows, lt)) (hlt : lt ≠ "Unknown") :
    ∀ r ∈ selection e v,
      ((∃ b, (r, b) ∈ rows) ↔
        ¬(r.orderId ∈ knownIds e.oldSheets lt ∨
          r.orderId ∈ knownIds e.newSheets lt)) := by
  intro r hr
  obtain ⟨heq, hlab, _⟩ := processVendor_ok_eq h
  dsimp only at heq
  have hne : selection e v ≠ [] := fun hc => by rw [hc] at hr; cases hr
  have hl : lt = labelOf e.registry v := hlab hne
  constructor
  · rintro ⟨b, hb⟩
    rw [heq] at hb
    obtain ⟨r2, hr2, hpr⟩ := List.mem_map.mp hb
    have hrr : r2 = r := congrArg Prod.fst hpr
    subst hrr
    obtain ⟨_, h2, h3⟩ := survivorsOf_subset hr2
    rw [hl]
    push_neg
    exact ⟨h2, h3⟩
  · intro hn
    rw [hl] at hn
    push_neg at hn
    refine ⟨newFlag e lt r, ?_⟩
    rw [heq]
    exact List.mem_map_of_mem _ (mem_survivorsOf.mpr ⟨hr, hn.1, hn.2⟩)

/-- Witness for C3 at a concrete run: the order known to the old source is
suppressed, the unknown one survives. -/
theorem c3_witness :
    processVendor envSimple "A" =
      .ok ([(⟨"3", "A-y"⟩, false)], "Label Vendors") ∧
    ∀ r ∈ selection envSimple "A",
      ((∃ b, (r, b) ∈ ([(⟨"3", "A-y"⟩, false)] : List (Row × Bool))) ↔
        ¬(r.orderId ∈ knownIds envSimple.oldSheets "Label Vendors" ∨
          r.orderId ∈ knownIds envSimple.newSheets "Label Vendors")) :=
  ⟨rfl, c3_suppression_iff envSimple "A" _ "Label Vendors" rfl (by decide)⟩

/-! ### Claim C4: Unknown-labelled vendors -/

/-- Claim C4 counterexample: when a master workbook contains a sheet named
`Unknown`, a vendor resolving to the `Unknown` label type is deduplicated
against it — its nonempty selection does not pass through unchanged. -/
theorem c4_counterexample :
    labelOf envUnknownSheet.registry "Q" = "Unknown" ∧
    selection envUnknownSheet "Q" = [⟨"7", "Q-1"⟩] ∧
    processVendor envUnknownSheet "Q" = .ok ([], "Unknown") :=
  ⟨rfl, rfl, rfl⟩

/-- Claim C4, amended: an `Unknown`-labelled vendor's retained orders all
carry `is_new_sku = false`; and provided neither master workbook contains a
sheet literally named `Unknown`, no duplicate suppression occurs — the
selection passes through unchanged. -/
theorem c4_amended (e : Env) (v : String) (out : List (Row × Bool) × String)
    (h : processVendor e v = .ok out) (hu : out.2 = "Unknown") :
    (∀ p ∈ out.1, p.2 = false) ∧
    (lookupSheet e.oldSheets "Unknown" = none →
     lookupSheet e.newSheets "Unknown" = none →
     out.1.map Prod.fst = selection e v) := by
  obtain ⟨heq, hlab, hemp⟩ := processVendor_ok_eq h
  constructor
  · intro p hp
    rw [heq] at hp
    obtain ⟨r, _, hpr⟩ := List.mem_map.mp hp
    rw [← hpr]
    simp [newFlag, hu]
  · intro ho hn
    by_cases hsel : selection e v = []
    · rw [hemp hsel, hsel]
      rfl
    · have hlu : labelOf e.registry v = "Unknown" := by
        rw [← hlab hsel, hu]
      rw [heq, List.map_map]
      have hid : (Prod.fst ∘ fun r => (r, newFlag e out.2 r)) = id := rfl
      rw [hid, List.map_id]
      unfold survivorsOf
      rw [hlu, knownIds_of_none ho, knownIds_of_none hn]
      simp

/-- Witness for C4 at a concrete run with no `Unknown` reference sheet. -/
theorem c4_witness :
    processVendor envPlain "Q" = .ok ([(⟨"9", "Q-z"⟩, false)], "Unknown") ∧
    (∀ p ∈ ([(⟨"9", "Q-z"⟩, false)] : List (Row × Bool)), p.2 = false) ∧
    ([(⟨"9", "Q-z"⟩, false)] : List (Row × Bool)).map Prod.fst
      = selection envPlain "Q" :=
  ⟨rfl,
   (c4_amended envPlain "Q" _ rfl rfl).1,
   (c4_amended envPlain "Q" _ rfl rfl).2 rfl rfl⟩

/-! ### Claim C5: one vendor's failure aborts the whole run -/

/-- Claim C5 counterexample: the sheet `L1` lacks an `order_id` column, so
processing vendor `A` raises; the pool propagates the exception and the run
produces no vendor results at all, although vendor `X` succeeds in
isolation. -/
theorem c5_counterexample :
    runAll envBadColumn = .error "KeyError: order_id" ∧
    processVendor envBadColumn "X" =
      .ok ([(⟨"2", "X-b"⟩, false)], "Unknown") :=
  ⟨rfl, rfl⟩

/-- Claim C5, amended: a vendor whose label type has no sheet in either
source degrades to no suppression and still succeeds; but when any vendor's
worker raises (its label type's sheet exists without an `order_id` column),
the exception propagates through the pool and the whole run yields an error
— no vendor's result is produced. -/
theorem c5_amended (e : Env) (v w : String) (s : String)
    (hv : v ∈ vendorNames e) (herr : processVendor e v = .error s)
    (hwOld : lookupSheet e.oldSheets (labelOf e.registry w) = none)
    (hwNew : lookupSheet e.newSheets (labelOf e.registry w) = none) :
    (∃ s2, runAll e = .error s2) ∧
    (∃ out, processVendor e w = .ok out ∧ out.1.map Prod.fst = selection e w) := by
  constructor
  · exact mapPool_error_of_mem hv herr
  · cases hok : processVendor e w with
    | error s3 =>
      exfalso
      unfold processVendor at hok
      split at hok
      · cases hok
      · split at hok
        · rename_i s4 h1
          unfold suppressAgainst at h1
          rw [hwOld] at h1
          cases h1
        · rename_i sel1 h1
          split at hok
          · rename_i s4 h2
            unfold suppressAgainst at h2
            rw [hwNew] at h2
            cases h2
          · split at hok <;> cases hok
    | ok out =>
      refine ⟨out, rfl, ?_⟩
      obtain ⟨heq, hlab, hemp⟩ := processVendor_ok_eq hok
      by_cases hsel : selection e w = []
      · rw [hemp hsel, hsel]
        rfl
      · rw [heq, List.map_map]
        have hid : (Prod.fst ∘ fun r => (r, newFlag e out.2 r)) = id := rfl
        rw [hid, List.map_id]
        unfold survivorsOf
        rw [knownIds_of_none hwOld, knownIds_of_none hwNew]
        simp

/-- Witness for C5 at the concrete failing run. -/
theorem c5_witness :
    ("A" ∈ vendorNames envBadColumn) ∧
    processVendor envBadColumn "A" = .error "KeyError: order_id" ∧
    (∃ s2, runAll envBadColumn = .error s2) ∧
    (∃ out, processVendor envBadColumn "X" = .ok out ∧
      out.1.map Prod.fst = selection envBadColumn "X") :=
  ⟨by decide, rfl,
   (c5_amended envBadColumn "A" "X" "KeyError: order_id" (by decide) rfl rfl rfl).1,
   (c5_amended envBadColumn "A" "X" "KeyError: order_id" (by decide) rfl rfl rfl).2⟩

/-! ### Claims C9 and C10: marker rows and silently dropped Unknown rows -/

/-- Claim C9: every batch row whose SKU matches the marker pattern lands in
the removed-rows report, is counted there, leaves the working set before
vendor processing, and appears in none of the three partitions. -/
theorem c9_removed_rows (e : Env) (rs : List (List (Row × Bool) × String))
    (h : runAll e = .ok rs) :
    (removedOrders e).length
        = (e.batch.filter (fun r => isRemovedSku r.sku)).length ∧
    ∀ r ∈ e.batch, isRemovedSku r.sku = true →
      (r ∈ removedOrders e ∧ r ∉ workingOrders e ∧
       ∀ b, (r, b) ∉ labelPart rs ∧ (r, b) ∉ nonLabelPart rs ∧
            (r, b) ∉ unknownPart rs) := by
  refine ⟨rfl, ?_⟩
  intro r hr hmark
  have hrem : r ∈ removedOrders e := List.mem_filter.mpr ⟨hr, hmark⟩
  have hnw : r ∉ workingOrders e := by
    intro hw
    have h1 := List.mem_filter.mp hw
    have h2 := List.mem_filter.mp h1.1
    rw [hmark] at h2
    simp at h2
  refine ⟨hrem, hnw, fun b => ⟨?_, ?_, ?_⟩⟩ <;> intro hmem
  · exact hnw (partitionRows_sound h (Or.inl hmem)).1
  · exact hnw (partitionRows_sound h (Or.inr (Or.inl hmem))).1
  · exact hnw (partitionRows_sound h (Or.inr (Or.inr hmem))).1

/-- Witness for C9 at a concrete run holding a marker row. -/
theorem c9_witness :
    runAll envSimple = .ok [([(⟨"3", "A-y"⟩, false)], "Label Vendors")] ∧
    (removedOrders envSimple).length
        = (envSimple.batch.filter (fun r => isRemovedSku r.sku)).length ∧
    ∀ r ∈ envSimple.batch, isRemovedSku r.sku = true →
      (r ∈ removedOrders envSimple ∧ r ∉ workingOrders envSimple ∧
       ∀ b, (r, b) ∉ labelPart [([(⟨"3", "A-y"⟩, false)], "Label Vendors")] ∧
            (r, b) ∉ nonLabelPart [([(⟨"3", "A-y"⟩, false)], "Label Vendors")] ∧
            (r, b) ∉ unknownPart [([(⟨"3", "A-y"⟩, false)], "Label Vendors")]) :=
  ⟨rfl, c9_removed_rows envSimple _ rfl⟩

/-- Claim C10 counterexample: a row whose SKU's first `-`-token is `Unknown`
but which also matches the marker pattern does appear in the removed-rows
report, so it is not dropped without being reported anywhere. -/
theorem c10_counterexample :
    vendorName "Unknown-RET" = "Unknown" ∧
    (⟨"1", "Unknown-RET"⟩ : Row) ∈ removedOrders envMarkerUnknown :=
  ⟨rfl, by decide⟩

/-- Claim C10, amended: a row whose SKU's first `-`-token is `Unknown` and
which does not match the marker pattern is silently dropped before vendor
processing: it leaves the working set, appears in no partition, and is
absent from the removed-rows report. -/
theorem c10_amended (e : Env) (rs : List (List (Row × Bool) × String))
    (h : runAll e = .ok rs) :
    ∀ r ∈ e.batch, vendorName r.sku = "Unknown" → isRemovedSku r.sku = false →
      (r ∉ workingOrders e ∧ r ∉ removedOrders e ∧
       ∀ b, (r, b) ∉ labelPart rs ∧ (r, b) ∉ nonLabelPart rs ∧
            (r, b) ∉ unknownPart rs) := by
  intro r hr hu hmark
  have hnw : r ∉ workingOrders e := by
    intro hw
    have h1 := List.mem_filter.mp hw
    rw [hu] at h1
    simp at h1
  have hnr : r ∉ removedOrders e := by
    intro hrm
    have h2 := (List.mem_filter.mp hrm).2
    rw [hmark] at h2
    cases h2
  refine ⟨hnw, hnr, fun b => ⟨?_, ?_, ?_⟩⟩ <;> intro hmem
  · exact hnw (partitionRows_sound h (Or.inl hmem)).1
  · exact hnw (partitionRows_sound h (Or.inr (Or.inl hmem))).1
  · exact hnw (partitionRows_sound h (Or.inr (Or.inr hmem))).1

/-- Witness for C10 at a concrete run. -/
theorem c10_witness :
    runAll envUnknownRow = .ok [([(⟨"2", "A-x"⟩, true)], "Label Vendors")] ∧
    ∀ r ∈ envUnknownRow.batch,
      vendorName r.sku = "Unknown" → isRemovedSku r.sku = false →
      (r ∉ workingOrders envUnknownRow ∧ r ∉ removedOrders envUnknownRow ∧
       ∀ b, (r, b) ∉ labelPart [([(⟨"2", "A-x"⟩, true)], "Label Vendors")] ∧
            (r, b) ∉ nonLabelPart [([(⟨"2", "A-x"⟩, true)], "Label Vendors")] ∧
            (r, b) ∉ unknownPart [([(⟨"2", "A-x"⟩, true)], "Label Vendors")]) :=
  ⟨rfl, c10_amended envUnknownRow _ rfl⟩

/-! ### Claim C1: partition completeness -/

theorem partition_rowLabel {e : Env} {rs : List (List (Row × Bool) × String)}
    (h : runAll e = .ok rs) {p : Row × Bool} :
    (p ∈ labelPart rs → rowLabel e p.1 = "Label Vendors") ∧
    (p ∈ nonLabelPart rs → rowLabel e p.1 = "Non-Label Vendors") ∧
    (p ∈ unknownPart rs →
      rowLabel e p.1 ≠ "Label Vendors" ∧ rowLabel e p.1 ≠ "Non-Label Vendors") := by
  refine ⟨?_, ?_, ?_⟩
  · intro hp
    obtain ⟨pr, hpr, hlit, hin⟩ := mem_labelPart.mp hp
    obtain ⟨v, _, hok⟩ := mapPool_ok_mem_rev h hpr
    obtain ⟨_, _, _, hrl, _, _⟩ := processVendor_ok_rows hok hin
    rw [hrl, hlit]
  · intro hp
    obtain ⟨pr, hpr, hlit, hin⟩ := mem_nonLabelPart.mp hp
    obtain ⟨v, _, hok⟩ := mapPool_ok_mem_rev h hpr
    obtain ⟨_, _, _, hrl, _, _⟩ := processVendor_ok_rows hok hin
    rw [hrl, hlit]
  · intro hp
    obtain ⟨pr, hpr, hne1, hne2, hin⟩ := mem_unknownPart.mp hp
    obtain ⟨v, _, hok⟩ := mapPool_ok_mem_rev h hpr
    obtain ⟨_, _, _, hrl, _, _⟩ := processVendor_ok_rows hok hin
    rw [hrl]
    exact ⟨hne1, hne2⟩

/-- Claim C1 counterexample: on a batch holding two copies of one order id,
the three partition sizes sum to 2 while the spec's deduplicated, filtered
batch has size 1 — the code performs no intra-batch `order_id` collapsing,
so the claimed equality fails. -/
theorem c1_counterexample :
    (runAll envDupOrder).map (fun rs =>
      (labelPart rs).length + (nonLabelPart rs).length + (unknownPart rs).length)
      = Except.ok 2 ∧
    spec_dedupedFilteredCount envDupOrder = 1 ∧ (2 : Nat) ≠ 1 :=
  ⟨rfl, rfl, by decide⟩

/-- Claim C1, amended: on a successful run, the three partition sizes sum to
the total number of rows surviving duplicate suppression across vendors (no
intra-batch `order_id` collapsing occurs); no row appears in two partitions;
and every working row surviving suppression appears in some partition. -/
theorem c1_partition_conservation (e : Env)
    (rs : List (List (Row × Bool) × String)) (h : runAll e = .ok rs) :
    ((labelPart rs).length + (nonLabelPart rs).length + (unknownPart rs).length
       = ((vendorNames e).map (fun v => (survivorsOf e v).length)).sum) ∧
    (∀ p : Row × Bool,
       (p ∈ labelPart rs → p ∉ nonLabelPart rs ∧ p ∉ unknownPart rs) ∧
       (p ∈ nonLabelPart rs → p ∉ unknownPart rs)) ∧
    (∀ r ∈ workingOrders e, survivesSupp e r →
       ∃ b, (r, b) ∈ labelPart rs ∨ (r, b) ∈ nonLabelPart rs ∨
            (r, b) ∈ unknownPart rs) := by
  refine ⟨?_, ?_, fun r hr hs => partition_complete h hr hs⟩
  · rw [partition_length_sum]
    exact mapPool_ok_sum h
  · intro p
    obtain ⟨hL, hN, hU⟩ := @partition_rowLabel e rs h p
    refine ⟨fun h1 => ⟨fun h2 => ?_, fun h2 => ?_⟩, fun h1 h2 => ?_⟩
    · have := (hL h1).symm.trans (hN h2)
      exact absurd this (by decide)
    · exact (hU h2).1 (hL h1)
    · exact (hU h2).2 (hN h1)

/-- Witness for C1 at a concrete successful run. -/
theorem c1_witness :
    runAll envSimple = .ok [([(⟨"3", "A-y"⟩, false)], "Label Vendors")] ∧
    (((labelPart [([(⟨"3", "A-y"⟩, false)], "Label Vendors")]).length
        + (nonLabelPart [([(⟨"3", "A-y"⟩, false)], "Label Vendors")]).length
        + (unknownPart [([(⟨"3", "A-y"⟩, false)], "Label Vendors")]).length
       = ((vendorNames envSimple).map
           (fun v => (survivorsOf envSimple v).length)).sum) ∧
     (∀ p : Row × Bool,
        (p ∈ labelPart [([(⟨"3", "A-y"⟩, false)], "Label Vendors")] →
           p ∉ nonLabelPart [([(⟨"3", "A-y"⟩, false)], "Label Vendors")] ∧
           p ∉ unknownPart [([(⟨"3", "A-y"⟩, false)], "Label Vendors")]) ∧
        (p ∈ nonLabelPart [([(⟨"3", "A-y"⟩, false)], "Label Vendors")] →
           p ∉ unknownPart [([(⟨"3", "A-y"⟩, false)], "Label Vendors")])) ∧
     (∀ r ∈ workingOrders envSimple, survivesSupp envSimple r →
        ∃ b, (r, b) ∈ labelPart [([(⟨"3", "A-y"⟩, false)], "Label Vendors")] ∨
             (r, b) ∈ nonLabelPart [([(⟨"3", "A-y"⟩, false)], "Label Vendors")] ∨
             (r, b) ∈ unknownPart [([(⟨"3", "A-y"⟩, false)], "Label Vendors")])) :=
  ⟨rfl, c1_partition_conservation envSimple _ rfl⟩

/-! ### Claim C6: vendor count consistency -/

/-- Claim C6 counterexample: when one order id spans two vendor prefixes,
the per-vendor unique order counts sum to 2 while the combined partitions
hold a single distinct order id. -/
theorem c6_counterexample :
    (runAll envSpanVendors).map (fun rs =>
      (sumVendorCounts (allProcessed rs), totalOrderCount (allProcessed rs)))
      = Except.ok (2, 1) ∧ (2 : Nat) ≠ 1 :=
  ⟨rfl, by decide⟩

/-- Claim C6, amended: the per-vendor unique order counts of a combined row
list sum to its distinct order id count, provided every order id belongs to
a single vendor prefix within that list. -/
theorem c6_count_consistency (rows : List (Row × Bool))
    (huniq : ∀ p ∈ rows, ∀ q ∈ rows,
      p.1.orderId = q.1.orderId → vendorName p.1.sku = vendorName q.1.sku) :
    sumVendorCounts rows = totalOrderCount rows := by
  classical
  unfold sumVendorCounts vendorOrderCounts totalOrderCount
  rw [List.map_map]
  have hcomp : (Prod.snd ∘ fun v => (v,
      (uniqueFirst ((rows.filter (fun p => decide (vendorName p.1.sku = v))).map
        (fun p => p.1.orderId))).length))
      = (fun v => (uniqueFirst ((rows.filter
          (fun p => decide (vendorName p.1.sku = v))).map
            (fun p => p.1.orderId))).length) := rfl
  rw [hcomp]
  simp only [length_uniqueFirst]
  rw [← List.sum_toFinset _ (nodup_uniqueFirst _), uniqueFirst_toFinset]
  rw [← Finset.card_biUnion]
  · congr 1
    ext i
    simp only [Finset.mem_biUnion, List.mem_toFinset, List.mem_map,
      List.mem_filter, decide_eq_true_eq]
    constructor
    · rintro ⟨v, _, p, ⟨hp, _⟩, hpi⟩
      exact ⟨p, hp, hpi⟩
    · rintro ⟨p, hp, hpi⟩
      exact ⟨vendorName p.1.sku, ⟨p, hp, rfl⟩, p, ⟨hp, rfl⟩, hpi⟩
  · intro x hx y hy hxy
    rw [Finset.disjoint_left]
    intro i hix hiy
    simp only [List.mem_toFinset, List.mem_map, List.mem_filter,
      decide_eq_true_eq] at hix hiy
    obtain ⟨p, ⟨hp, hpx⟩, hpi⟩ := hix
    obtain ⟨q, ⟨hq, hqy⟩, hqi⟩ := hiy
    exact hxy (hpx ▸ hqy ▸ huniq p hp q hq (hpi.trans hqi.symm))

/-- Witness for C6 at a concrete row list where order ids determine
vendors. -/
theorem c6_witness :
    (∀ p ∈ ([(⟨"1", "A-x"⟩, false), (⟨"2", "A-y"⟩, true)] : List (Row × Bool)),
      ∀ q ∈ ([(⟨"1", "A-x"⟩, false), (⟨"2", "A-y"⟩, true)] : List (Row × Bool)),
      p.1.orderId = q.1.orderId → vendorName p.1.sku = vendorName q.1.sku) ∧
    sumVendorCounts [(⟨"1", "A-x"⟩, false), (⟨"2", "A-y"⟩, true)]
      = totalOrderCount [(⟨"1", "A-x"⟩, false), (⟨"2", "A-y"⟩, true)] :=
  ⟨by decide, c6_count_consistency _ (by decide)⟩

theorem chunksOfAux_flatten {α : Type} (n : Nat) (hn : n ≠ 0) :
    ∀ (fuel : Nat) (l : List α), l.length ≤ fuel →
      (chunksOfAux n fuel l).flatten = l := by
  intro fuel
  induction fuel with
  | zero =>
    intro l hl
    cases l with
    | nil => rfl
    | cons x xs => simp at hl
  | succ fuel ih =>
    intro l hl
    cases l with
    | nil => rfl
    | cons x xs =>
      simp only [chunksOfAux, List.flatten_cons]
      rw [ih ((x :: xs).drop n) ?_]
      · exact List.take_append_drop n (x :: xs)
      · rw [List.length_drop]
        simp only [List.length_cons] at hl ⊢
        omega

theorem chunksOf_flatten {α : Type} (n : Nat) (hn : n ≠ 0) (l : List α) :
    (chunksOf n l).flatten = l := by
  rw [chunksOf, if_neg hn]
  exact chunksOfAux_flatten n hn l.length l (Nat.le_refl _)

theorem chunks_disjoint {α : Type} [DecidableEq α] {n : Nat} (hn : n ≠ 0)
    {skus : List α} (hnd : skus.Nodup) {j k : Nat} (hjk : j ≠ k) {x : α}
    (hx : x ∈ ((chunksOf n skus)[j]?).getD [])
    (hy : x ∈ ((chunksOf n skus)[k]?).getD []) : False := by
  have hflat : (chunksOf n skus).flatten = skus := chunksOf_flatten n hn skus
  have hndf : (chunksOf n skus).flatten.Nodup := by rw [hflat]; exact hnd
  have hpair : (chunksOf n skus).Pairwise List.Disjoint :=
    (List.nodup_flatten.mp hndf).2
  cases hcj : (chunksOf n skus)[j]? with
  | none => rw [hcj] at hx; cases hx
  | some cj =>
    cases hck : (chunksOf n skus)[k]? with
    | none => rw [hck] at hy; cases hy
    | some ck =>
      rw [hcj] at hx
      rw [hck] at hy
      simp only [Option.getD_some] at hx hy
      obtain ⟨hjlt, hje⟩ := List.getElem?_eq_some.mp hcj
      obtain ⟨hklt, hke⟩ := List.getElem?_eq_some.mp hck
      have hget := List.pairwise_iff_getElem.mp hpair
      rcases Nat.lt_or_ge j k with hlt | hge
      · exact (hje ▸ hke ▸ hget j k hjlt hklt hlt) hx hy
      · have hlt2 : k < j := Nat.lt_of_le_of_ne hge (fun hc => hjk hc.symm)
        exact (hke ▸ hje ▸ hget k j hklt hjlt hlt2) hy hx

theorem mem_mergedDetails {outcomes : List (Option (List (String × String)))}
    {q : String × String} :
    q ∈ mergedDetails outcomes ↔ ∃ o ∈ outcomes, q ∈ o.getD [] := by
  simp [mergedDetails, List.mem_flatten]

theorem leftJoin_preserves {rows : List (Row × Bool)}
    {d : List (String × String)} {p : Row × Bool} (hp : p ∈ rows) :
    ∃ a, (p, a) ∈ leftJoin rows d := by
  unfold leftJoin
  by_cases he : (d.filter (fun q => decide (q.1 = p.1.sku))).isEmpty
  · refine ⟨none, List.mem_flatMap.mpr ⟨p, hp, ?_⟩⟩
    rw [if_pos he]
    exact List.mem_singleton.mpr rfl
  · have hne : d.filter (fun q => decide (q.1 = p.1.sku)) ≠ [] := by
      intro hc
      exact he (by rw [hc]; rfl)
    obtain ⟨q, hq⟩ := List.exists_mem_of_ne_nil _ hne
    refine ⟨some q.2, List.mem_flatMap.mpr ⟨p, hp, ?_⟩⟩
    rw [if_neg he]
    exact List.mem_map_of_mem _ hq

theorem leftJoin_none {rows : List (Row × Bool)} {d : List (String × String)}
    {p : Row × Bool} (hmiss : ∀ v, (p.1.sku, v) ∉ d) :
    (p ∈ rows → (p, none) ∈ leftJoin rows d) ∧
    (∀ a, (p, a) ∈ leftJoin rows d → a = none) := by
  have hfe : d.filter (fun q => decide (q.1 = p.1.sku)) = [] := by
    rw [List.filter_eq_nil_iff]
    intro q hq
    simp only [decide_eq_true_eq]
    intro hc
    exact hmiss q.2 (by rw [← hc]; exact hq)
  constructor
  · intro hp
    unfold leftJoin
    refine List.mem_flatMap.mpr ⟨p, hp, ?_⟩
    rw [if_pos (by rw [hfe]; rfl)]
    exact List.mem_singleton.mpr rfl
  · intro a ha
    unfold leftJoin at ha
    obtain ⟨p2, _, hin⟩ := List.mem_flatMap.mp ha
    by_cases he : (d.filter (fun q => decide (q.1 = p2.1.sku))).isEmpty
    · rw [if_pos he] at hin
      have h2 := List.mem_singleton.mp hin
      exact congrArg Prod.snd h2
    · rw [if_neg he] at hin
      obtain ⟨q, hq, hqe⟩ := List.mem_map.mp hin
      have hp2 : p2 = p := congrArg Prod.fst hqe
      rw [hp2] at hq
      have hqf := List.mem_filter.mp hq
      have hq1 : q.1 = p.1.sku := by simpa using hqf.2
      exact absurd (show (p.1.sku, q.2) ∈ d from by
        rw [← hq1]; exact hqf.1) (hmiss q.2)

theorem leftJoin_some {rows : List (Row × Bool)} {d : List (String × String)}
    {p : Row × Bool} {v : String} (hv : (p.1.sku, v) ∈ d) (hp : p ∈ rows) :
    (p, some v) ∈ leftJoin rows d := by
  have hqf : (p.1.sku, v) ∈ d.filter (fun q => decide (q.1 = p.1.sku)) :=
    List.mem_filter.mpr ⟨hv, by simp⟩
  have hne : ¬(d.filter (fun q => decide (q.1 = p.1.sku))).isEmpty = true := by
    intro hc
    rw [List.isEmpty_iff] at hc
    rw [hc] at hqf
    cases hqf
  unfold leftJoin
  refine List.mem_flatMap.mpr ⟨p, hp, ?_⟩
  rw [if_neg hne]
  exact List.mem_map_of_mem _ hqf

/-! ### Claim C7: enrichment partial-failure isolation -/

/-- Claim C7: when enrichment batch `k` fails while every successful batch
response is keyed by its requested SKU chunk, the left-join merge preserves
every partition row; a row whose SKU belongs to a batch other than `k`
carries its fetched attribute, and a row whose SKU belongs to batch `k`
carries a null attribute. -/
theorem c7_partial_failure (skus : List String)
    (outcomes : List (Option (List (String × String))))
    (rows : List (Row × Bool)) (k : Nat)
    (hnd : skus.Nodup)
    (hkeys : ∀ (j : Nat) (l : List (String × String)),
      outcomes[j]? = some (some l) →
      l.map Prod.fst = ((chunksOf 10 skus)[j]?).getD [])
    (hk : outcomes[k]? = some none) :
    ∀ p ∈ rows,
      (∃ a, (p, a) ∈ leftJoin rows (mergedDetails outcomes)) ∧
      (p.1.sku ∈ ((chunksOf 10 skus)[k]?).getD [] →
        (p, (none : Option String)) ∈ leftJoin rows (mergedDetails outcomes) ∧
        ∀ a, (p, a) ∈ leftJoin rows (mergedDetails outcomes) → a = none) ∧
      (∀ (j : Nat) (l : List (String × String)),
        outcomes[j]? = some (some l) →
        p.1.sku ∈ ((chunksOf 10 skus)[j]?).getD [] →
        ∃ v, (p, some v) ∈ leftJoin rows (mergedDetails outcomes) ∧
             (p.1.sku, v) ∈ l) := by
  intro p hp
  refine ⟨leftJoin_preserves hp, ?_, ?_⟩
  · intro hsk
    have hmiss : ∀ v, (p.1.sku, v) ∉ mergedDetails outcomes := by
      intro v hv
      rw [mem_mergedDetails] at hv
      obtain ⟨o, ho, hvo⟩ := hv
      cases o with
      | none => cases hvo
      | some l =>
        simp only [Option.getD_some] at hvo
        obtain ⟨j, hj⟩ := List.mem_iff_getElem?.mp ho
        have hkey := hkeys j l hj
        have hjk : j ≠ k := by
          intro hc
          rw [hc] at hj
          rw [hk] at hj
          simp at hj
        have hsk2 : p.1.sku ∈ ((chunksOf 10 skus)[j]?).getD [] := by
          rw [← hkey]
          exact List.mem_map.mpr ⟨(p.1.sku, v), hvo, rfl⟩
        exact chunks_disjoint (by decide) hnd hjk hsk2 hsk
    obtain ⟨h1, h2⟩ := @leftJoin_none rows (mergedDetails outcomes) p hmiss
    exact ⟨h1 hp, h2⟩
  · intro j l hj hsk
    have hkey := hkeys j l hj
    have hmm : p.1.sku ∈ l.map Prod.fst := by rw [hkey]; exact hsk
    obtain ⟨q, hq, hqe⟩ := List.mem_map.mp hmm
    have hqd : (p.1.sku, q.2) ∈ mergedDetails outcomes := by
      rw [mem_mergedDetails]
      refine ⟨some l, List.getElem?_mem hj, ?_⟩
      simp only [Option.getD_some]
      rw [← hqe]
      exact hq
    exact ⟨q.2, leftJoin_some hqd hp, by rw [← hqe]; exact hq⟩

/-- Witness for C7 at a concrete two-chunk run whose second chunk fails. -/
theorem c7_witness :
    skus11.Nodup ∧
    (∀ (j : Nat) (l : List (String × String)),
      outcomes2[j]? = some (some l) →
      l.map Prod.fst = ((chunksOf 10 skus11)[j]?).getD []) ∧
    outcomes2[1]? = some none ∧
    ∀ p ∈ rows2,
      (∃ a, (p, a) ∈ leftJoin rows2 (mergedDetails outcomes2)) ∧
      (p.1.sku ∈ ((chunksOf 10 skus11)[1]?).getD [] →
        (p, (none : Option String)) ∈ leftJoin rows2 (mergedDetails outcomes2) ∧
        ∀ a, (p, a) ∈ leftJoin rows2 (mergedDetails outcomes2) → a = none) ∧
      (∀ (j : Nat) (l : List (String × String)),
        outcomes2[j]? = some (some l) →
        p.1.sku ∈ ((chunksOf 10 skus11)[j]?).getD [] →
        ∃ v, (p, some v) ∈ leftJoin rows2 (mergedDetails outcomes2) ∧
             (p.1.sku, v) ∈ l) := by
  have hkeys : ∀ (j : Nat) (l : List (String × String)),
      outcomes2[j]? = some (some l) →
      l.map Prod.fst = ((chunksOf 10 skus11)[j]?).getD [] := by
    intro j l hj
    match j with
    | 0 =>
      simp only [outcomes2, okData10] at hj
      simp only [List.getElem?_cons_zero, Option.some.injEq] at hj
      subst hj
      decide
    | 1 => simp [outcomes2] at hj
    | (m + 2) => simp [outcomes2] at hj
  exact ⟨by decide, hkeys, rfl,
    c7_partial_failure skus11 outcomes2 rows2 1 (by decide) hkeys rfl⟩

/-! ### Claim C8: retry bound, delays, and batch isolation -/

theorem mergedDetails_isolation
    {outcomes : List (Option (List (String × String)))} {j : Nat}
    {l : List (String × String)} (hj : outcomes[j]? = some (some l))
    {q : String × String} (hq : q ∈ l) :
    q ∈ mergedDetails outcomes :=
  mem_mergedDetails.mpr ⟨some l, List.getElem?_mem hj, hq⟩

/-- Claim C8 counterexample: three straight timeouts consume all three
attempts with zero `time.sleep` delays — retries after a timeout are not
separated by the fixed delay the claim asserts for every transport or
timeout failure. -/
theorem c8_counterexample :
    (fetchSkuDetails [.timeout, .timeout, .timeout]).attemptsMade = 3 ∧
    (fetchSkuDetails [.timeout, .timeout, .timeout]).sleeps = 0 ∧
    ¬((fetchSkuDetails [.timeout, .timeout, .timeout]).sleeps
        = (fetchSkuDetails [.timeout, .timeout, .timeout]).attemptsMade - 1) :=
  ⟨rfl, rfl, by decide⟩

/-- Claim C8, amended: at most three attempts are made; a two-second delay
precedes a retry exactly after each non-final non-timeout failure (timeouts
retry immediately, with no delay); the call returns no result iff no attempt
succeeded (the batch is then dropped); and every successful chunk's data
reaches the merged details regardless of any other chunk's failure. -/
theorem c8_retry_behaviour (outs : List Attempt) (h3 : outs.length = 3) :
    (fetchSkuDetails outs).attemptsMade ≤ 3 ∧
    (fetchSkuDetails outs).sleeps =
      (outs.take ((fetchSkuDetails outs).attemptsMade - 1)).countP isReqError ∧
    ((fetchSkuDetails outs).result = none ↔ ∀ a ∈ outs, isSuccess a = false) ∧
    (∀ (outcomes : List (Option (List (String × String)))) (j : Nat)
       (l : List (String × String)), outcomes[j]? = some (some l) →
       ∀ q ∈ l, q ∈ mergedDetails outcomes) := by
  obtain ⟨a, b, c, rfl⟩ := List.length_eq_three.mp h3
  refine ⟨?_, ?_, ?_,
    fun outcomes j l hj q hq => mergedDetails_isolation hj hq⟩
  · cases a <;> cases b <;> cases c <;> simp [fetchSkuDetails, fetchLoop]
  · cases a <;> cases b <;> cases c <;>
      simp [fetchSkuDetails, fetchLoop, isReqError, List.countP_cons]
  · cases a <;> cases b <;> cases c <;>
      simp [fetchSkuDetails, fetchLoop, isSuccess]

/-- Witness for C8 at a concrete attempt sequence: a timeout, then a request
exception, then a success. -/
theorem c8_witness :
    ([Attempt.timeout, Attempt.reqError,
      Attempt.success ⟨true, []⟩] : List Attempt).length = 3 ∧
    (fetchSkuDetails [.timeout, .reqError, .success ⟨true, []⟩]).attemptsMade ≤ 3 ∧
    (fetchSkuDetails [.timeout, .reqError, .success ⟨true, []⟩]).sleeps =
      (([Attempt.timeout, Attempt.reqError, Attempt.success ⟨true, []⟩]).take
        ((fetchSkuDetails
          [.timeout, .reqError, .success ⟨true, []⟩]).attemptsMade - 1)).countP
        isReqError ∧
    ((fetchSkuDetails [.timeout, .reqError, .success ⟨true, []⟩]).result = none ↔
      ∀ a ∈ ([Attempt.timeout, Attempt.reqError,
              Attempt.success ⟨true, []⟩] : List Attempt), isSuccess a = false) ∧
    (∀ (outcomes : List (Option (List (String × String)))) (j : Nat)
       (l : List (String × String)), outcomes[j]? = some (some l) →
       ∀ q ∈ l, q ∈ mergedDetails outcomes) :=
  ⟨rfl, c8_retry_behaviour [.timeout, .reqError, .success ⟨true, []⟩] rfl⟩
